import Mathlib

/-!
Shallow embedding of the cryptoBacktest simulation core
(`app/types.py`, `app/candles.py`, `app/ema.py`, `app/patterns.py`,
`app/cache.py`, `app/strategy.py`, `app/config.py`).

Python floats are modelled as exact rationals (ℚ); timestamps
(UTC datetimes / ms epochs) as natural numbers ordered by time.
Pandas DataFrames of candles are modelled as `List Candle` in row
order.  Fallible lookups return `Option`.
-/

namespace CryptoBacktest

/-- Candlestick pattern types (`app/types.py`, class PatternType). -/
inductive PatternType where
  | HAMMER
  | SHOOTING_STAR
  | DOJI
  | BULLISH_ENGULFING
  | BEARISH_ENGULFING
  | MORNING_STAR
  | EVENING_STAR
deriving DecidableEq, Repr

/-- Position exit reasons (`app/types.py`, class ExitReason). -/
inductive ExitReason where
  | TAKE_PROFIT
  | STOP_LOSS
  | EMA_BEARISH
  | FORCED_CLOSE
deriving DecidableEq, Repr

/-- Single candlestick datum (`app/types.py`, class Kline / one DataFrame
row as produced by `parse_kline` in `app/candles.py`).  The Python field
`open` is a Lean keyword, so it is rendered `open_`. -/
structure Candle where
  timestamp : Nat
  open_ : ℚ
  high : ℚ
  low : ℚ
  close : ℚ
  volume : ℚ
  close_time : Nat
  quote_volume : ℚ
  trades : Nat
  taker_buy_base_volume : ℚ
  taker_buy_quote_volume : ℚ
deriving DecidableEq, Repr

/-- Trading position data (`app/types.py`, class Position).  The exit
fields are `None` until the position closes, hence `Option`; the
Python type hints declare `exit_ema_short`/`exit_ema_long` as floats but
the strategy assigns possibly-`None` EMA results to them, so they are
`Option ℚ` here. -/
structure Position where
  symbol : String
  timeframe : String
  entry_time : Nat
  entry_price : ℚ
  quantity : ℚ
  pattern : PatternType
  entry_ema_short : ℚ
  entry_ema_long : ℚ
  exit_time : Option Nat := none
  exit_price : Option ℚ := none
  exit_reason : Option ExitReason := none
  exit_ema_short : Option ℚ := none
  exit_ema_long : Option ℚ := none
  pnl : ℚ := 0
  pnl_percent : ℚ := 0
  fees : ℚ := 0
  net_pnl : ℚ := 0
deriving DecidableEq, Repr

/-- `Position.calculate_pnl` (`app/types.py` lines 85-96).  The method
uses `self.exit_price` when already set, otherwise the argument; rational
division by zero yields 0 in Lean (the caller guarantees
`entry_price > 0`). -/
def Position.calculate_pnl (self : Position) (exit_price : ℚ) (fee_percent : ℚ) :
    Position :=
  let ep : ℚ := match self.exit_price with
    | none => exit_price
    | some e => e
  let gross_pnl := (ep - self.entry_price) * self.quantity
  let entry_fee := self.entry_price * self.quantity * fee_percent
  let exit_fee := ep * self.quantity * fee_percent
  { self with
    exit_price := some ep
    fees := entry_fee + exit_fee
    pnl := gross_pnl
    net_pnl := gross_pnl - (entry_fee + exit_fee)
    pnl_percent := (ep - self.entry_price) / self.entry_price }

/-! ### Settings defaults (`app/config.py`, class Settings) -/

def settings_trade_amount : ℚ := 100
def settings_trade_fee_percent : ℚ := 1 / 1000
def settings_take_profit_percent : ℚ := 8 / 100
def settings_stop_loss_percent : ℚ := -6 / 100
def settings_ema_short_period : Nat := 1
def settings_ema_long_period : Nat := 99

/-! ### Candle filtering (`app/candles.py`) -/

/-- `filter_complete_candles` (`app/candles.py` lines 151-169): keep only
candles whose `close_time` is strictly before the cutoff.  (The Python
early-return for an empty DataFrame and the timezone normalisation are
no-ops in this model.) -/
def filter_complete_candles (df : List Candle) (before_timestamp : Nat) :
    List Candle :=
  df.filter (fun c => c.close_time < before_timestamp)

/-! ### EMA computation (`app/ema.py`) -/

/-- Recursive tail of `calculate_ema`: given the previous EMA value,
produce the EMA values of the remaining prices. -/
def emaTail (alpha : ℚ) (prev : ℚ) : List ℚ → List ℚ
  | [] => []
  | p :: ps =>
    let e := alpha * p + (1 - alpha) * prev
    e :: emaTail alpha e ps

/-- `calculate_ema` (`app/ema.py` lines 14-41): `alpha = 2/(period+1)`,
`ema[0] = prices[0]`, `ema[i] = alpha*prices[i] + (1-alpha)*ema[i-1]`. -/
def calculate_ema (prices : List ℚ) (period : Nat) : List ℚ :=
  match prices with
  | [] => []
  | p :: ps => p :: emaTail (2 / ((period : ℚ) + 1)) p ps

/-- `get_ema_at_timestamp` (`app/ema.py` lines 44-88): EMA pair at a
timestamp using only candles closed strictly before it; `(none, none)`
when the history is insufficient. -/
def get_ema_at_timestamp (df_4h : List Candle) (target_timestamp : Nat)
    (short_period : Nat) (long_period : Nat) : Option ℚ × Option ℚ :=
  if df_4h.isEmpty then (none, none)
  else
    let completed_candles := filter_complete_candles df_4h target_timestamp
    if completed_candles.length = 0 then (none, none)
    else if completed_candles.length < max short_period long_period then
      (none, none)
    else
      let prices := completed_candles.map (fun c => c.close)
      let ema_short_array := calculate_ema prices short_period
      let ema_long_array := calculate_ema prices long_period
      (ema_short_array.getLast?, ema_long_array.getLast?)

/-! ### Pattern detection (`app/patterns.py`) -/

/-- `detect_hammer` (`app/patterns.py` lines 12-48). -/
def detect_hammer (candle : Candle) : Bool :=
  let body := |candle.close - candle.open_|
  let total_range := candle.high - candle.low
  if total_range = 0 then false
  else
    let upper_shadow := candle.high - max candle.open_ candle.close
    let lower_shadow := min candle.open_ candle.close - candle.low
    if body > (3 / 10) * total_range then false
    else if lower_shadow < 2 * body then false
    else if upper_shadow > (1 / 10) * total_range then false
    else true

/-- `detect_shooting_star` (`app/patterns.py` lines 51-87). -/
def detect_shooting_star (candle : Candle) : Bool :=
  let body := |candle.close - candle.open_|
  let total_range := candle.high - candle.low
  if total_range = 0 then false
  else
    let upper_shadow := candle.high - max candle.open_ candle.close
    let lower_shadow := min candle.open_ candle.close - candle.low
    if body > (3 / 10) * total_range then false
    else if upper_shadow < 2 * body then false
    else if lower_shadow > (1 / 10) * total_range then false
    else true

/-- `detect_doji` (`app/patterns.py` lines 90-109). -/
def detect_doji (candle : Candle) : Bool :=
  let body := |candle.close - candle.open_|
  let total_range := candle.high - candle.low
  if total_range = 0 then false
  else body ≤ (1 / 10) * total_range

/-- `detect_bullish_engulfing` (`app/patterns.py` lines 112-144). -/
def detect_bullish_engulfing (prev_candle curr_candle : Candle) : Bool :=
  if prev_candle.close ≥ prev_candle.open_ then false
  else if curr_candle.close ≤ curr_candle.open_ then false
  else if curr_candle.open_ ≥ prev_candle.close then false
  else if curr_candle.close ≤ prev_candle.open_ then false
  else true

/-- `detect_bearish_engulfing` (`app/patterns.py` lines 147-179). -/
def detect_bearish_engulfing (prev_candle curr_candle : Candle) : Bool :=
  if prev_candle.close ≤ prev_candle.open_ then false
  else if curr_candle.close ≥ curr_candle.open_ then false
  else if curr_candle.open_ ≤ prev_candle.close then false
  else if curr_candle.close ≥ prev_candle.open_ then false
  else true

/-- `detect_morning_star` (`app/patterns.py` lines 182-221). -/
def detect_morning_star (first middle third : Candle) : Bool :=
  if first.close ≥ first.open_ then false
  else if third.close ≤ third.open_ then false
  else
    let first_body := |first.close - first.open_|
    let middle_body := |middle.close - middle.open_|
    if middle_body ≥ (1 / 2) * first_body then false
    else
      let first_midpoint := (first.open_ + first.close) / 2
      if third.close ≤ first_midpoint then false
      else true

/-- `detect_evening_star` (`app/patterns.py` lines 224-263). -/
def detect_evening_star (first middle third : Candle) : Bool :=
  if first.close ≤ first.open_ then false
  else if third.close ≥ third.open_ then false
  else
    let first_body := |first.close - first.open_|
    let middle_body := |middle.close - middle.open_|
    if middle_body ≥ (1 / 2) * first_body then false
    else
      let first_midpoint := (first.open_ + first.close) / 2
      if third.close ≥ first_midpoint then false
      else true

/-- `detect_patterns` (`app/patterns.py` lines 266-315): fixed priority
chain over the 1-, 2- and 3-candle detectors, first match wins; `none`
for an out-of-range index or when nothing matches. -/
def detect_patterns (df : List Candle) (index : Nat) : Option PatternType :=
  match df[index]? with
  | none => none
  | some current =>
    if detect_hammer current then some PatternType.HAMMER
    else if detect_shooting_star current then some PatternType.SHOOTING_STAR
    else if detect_doji current then some PatternType.DOJI
    else
      let twoCandle : Option PatternType :=
        if 1 ≤ index then
          match df[index - 1]? with
          | none => none
          | some previous =>
            if detect_bullish_engulfing previous current then
              some PatternType.BULLISH_ENGULFING
            else if detect_bearish_engulfing previous current then
              some PatternType.BEARISH_ENGULFING
            else none
        else none
      match twoCandle with
      | some p => some p
      | none =>
        if 2 ≤ index then
          match df[index - 2]?, df[index - 1]? with
          | some first, some middle =>
            if detect_morning_star first middle current then
              some PatternType.MORNING_STAR
            else if detect_evening_star first middle current then
              some PatternType.EVENING_STAR
            else none
          | _, _ => none
        else none

/-- `is_bullish_pattern` (`app/patterns.py` lines 318-337). -/
def is_bullish_pattern (pattern : Option PatternType) : Bool :=
  match pattern with
  | none => false
  | some p =>
    p = PatternType.HAMMER ∨ p = PatternType.BULLISH_ENGULFING ∨
      p = PatternType.MORNING_STAR

/-! ### Cache merging (`app/cache.py`) -/

/-- `pd.DataFrame.drop_duplicates(subset=["timestamp"], keep="last")`:
keep a row only when no later row carries the same timestamp; relative
order of the kept rows is preserved. -/
def dedupKeepLast : List Candle → List Candle
  | [] => []
  | x :: xs =>
    if xs.any (fun y => y.timestamp = x.timestamp) then dedupKeepLast xs
    else x :: dedupKeepLast xs

/-- Comparison used by `sort_values("timestamp")`. -/
def candleLE (a b : Candle) : Prop := a.timestamp ≤ b.timestamp

instance : DecidableRel candleLE := fun a b =>
  inferInstanceAs (Decidable (a.timestamp ≤ b.timestamp))

instance : IsTotal Candle candleLE :=
  ⟨fun a b => Nat.le_total a.timestamp b.timestamp⟩

instance : IsTrans Candle candleLE :=
  ⟨fun _ _ _ h1 h2 => Nat.le_trans h1 h2⟩

/-- `df.sort_values("timestamp")`: stable comparison sort by timestamp
(the result is unique when timestamps are, as after deduplication). -/
def sortByTimestamp (l : List Candle) : List Candle :=
  List.insertionSort candleLE l

/-- `CacheManager.merge_with_cache` (`app/cache.py` lines 131-165).  The
cached DataFrame (`load_cache`'s result, `None` modelled as `[]`) and the
incoming one are concatenated, deduplicated by timestamp keeping the last
occurrence (so `new_df` wins), sorted by timestamp, and optionally
trimmed to timestamps at or after a retention cutoff
(`datetime.now - days_back`, modelled as the `cutoff` parameter). -/
def merge_with_cache (cached_df new_df : List Candle) (cutoff : Option Nat) :
    List Candle :=
  if cached_df.length = 0 then new_df
  else
    let combined_df := cached_df ++ new_df
    let deduped := dedupKeepLast combined_df
    let sorted := sortByTimestamp deduped
    match cutoff with
    | none => sorted
    | some t => sorted.filter (fun c => t ≤ c.timestamp)

/-! ### Backtester (`app/strategy.py`) -/

/-- Configuration carried by a `Backtester` instance
(`Backtester.__init__`, `app/strategy.py` lines 20-41). -/
structure BTConfig where
  trade_amount : ℚ
  fee_percent : ℚ
  take_profit : ℚ
  stop_loss : ℚ
  ema_short_period : Nat
  ema_long_period : Nat
deriving DecidableEq, Repr

/-- Python `x or default` for an optional float argument: `None` and
`0.0` are both falsy and replaced by the default. -/
def pyOr (x : Option ℚ) (default : ℚ) : ℚ :=
  match x with
  | none => default
  | some v => if v = 0 then default else v

/-- `Backtester.__init__` (`app/strategy.py` lines 20-41): each argument
defaults to `None` and is combined with the global settings via `or`. -/
def mkBacktester (trade_amount fee_percent take_profit stop_loss : Option ℚ) :
    BTConfig :=
  { trade_amount := pyOr trade_amount settings_trade_amount
    fee_percent := pyOr fee_percent settings_trade_fee_percent
    take_profit := pyOr take_profit settings_take_profit_percent
    stop_loss := pyOr stop_loss settings_stop_loss_percent
    ema_short_period := settings_ema_short_period
    ema_long_period := settings_ema_long_period }

/-- Mutable loop state of `Backtester.backtest`: the `current_position`
variable plus the result fields the loop updates. -/
structure BTState where
  current_position : Option Position
  positions : List Position
  total_trades : Nat
  winning_trades : Nat
  losing_trades : Nat
  ema_filter_blocked : Nat
  patterns_detected : Nat
deriving DecidableEq, Repr

def initialBTState : BTState :=
  { current_position := none, positions := [], total_trades := 0,
    winning_trades := 0, losing_trades := 0, ema_filter_blocked := 0,
    patterns_detected := 0 }

/-- The shared close-bookkeeping block (`app/strategy.py` lines 134-143
and 189-196): append the closed position, bump the trade counters, and
clear `current_position`. -/
def recordClosed (st : BTState) (pos : Position) : BTState :=
  { st with
    positions := st.positions ++ [pos]
    total_trades := st.total_trades + 1
    winning_trades :=
      if pos.net_pnl > 0 then st.winning_trades + 1 else st.winning_trades
    losing_trades :=
      if pos.net_pnl > 0 then st.losing_trades else st.losing_trades + 1
    current_position := none }

/-- Exit-condition evaluation for an open position (`app/strategy.py`
lines 94-116): the chosen reason together with the fill price, or `none`
to keep holding. -/
def evalExit (cfg : BTConfig) (df_4h : List Candle) (candle : Candle)
    (cp : Position) : Option (ExitReason × ℚ) :=
  let exit_price := candle.close
  let current_return := (exit_price - cp.entry_price) / cp.entry_price
  if current_return ≥ cfg.take_profit then
    some (ExitReason.TAKE_PROFIT, cp.entry_price * (1 + cfg.take_profit))
  else if current_return ≤ cfg.stop_loss then
    some (ExitReason.STOP_LOSS, cp.entry_price * (1 + cfg.stop_loss))
  else if current_return < 0 then
    match get_ema_at_timestamp df_4h candle.timestamp cfg.ema_short_period
        cfg.ema_long_period with
    | (some ema_short, some ema_long) =>
      if ema_short < ema_long then some (ExitReason.EMA_BEARISH, exit_price)
      else none
    | _ => none
  else none

/-- The "handle open position first" block (`app/strategy.py` lines
92-143): evaluate the exit conditions and, when one fires, close the
position (recording exit time/price/reason and the exit EMAs, computing
P&L) and record it. -/
def exitPhase (cfg : BTConfig) (df_4h : List Candle) (candle : Candle)
    (st : BTState) : BTState :=
  match st.current_position with
  | none => st
  | some cp =>
    match evalExit cfg df_4h candle cp with
    | none => st
    | some (reason, price) =>
      let emas := get_ema_at_timestamp df_4h candle.timestamp
        cfg.ema_short_period cfg.ema_long_period
      let closed :=
        { cp with
          exit_time := some candle.timestamp
          exit_price := some price
          exit_reason := some reason
          exit_ema_short := emas.1
          exit_ema_long := emas.2 }
      let closed := closed.calculate_pnl price cfg.fee_percent
      recordClosed st closed

/-- The "check for entry if no position" block (`app/strategy.py` lines
145-170). -/
def entryPhase (cfg : BTConfig) (symbol timeframe : String)
    (df_4h : List Candle) (candle : Candle) (pattern : Option PatternType)
    (st : BTState) : BTState :=
  match st.current_position with
  | some _ => st
  | none =>
    match pattern with
    | none => st
    | some p =>
      if is_bullish_pattern (some p) then
        match get_ema_at_timestamp df_4h candle.timestamp
            cfg.ema_short_period cfg.ema_long_period with
        | (some ema_short, some ema_long) =>
          if ema_short > ema_long then
            let entry_price := candle.close
            let quantity := cfg.trade_amount / entry_price
            { st with current_position := some (
              { symbol := symbol
                timeframe := timeframe
                entry_time := candle.timestamp
                entry_price := entry_price
                quantity := quantity
                pattern := p
                entry_ema_short := ema_short
                entry_ema_long := ema_long } : Position) }
          else
            { st with ema_filter_blocked := st.ema_filter_blocked + 1 }
        | _ => st
      else st

/-- One iteration of the candle loop (`app/strategy.py` lines 82-170). -/
def stepCandle (cfg : BTConfig) (symbol timeframe : String)
    (df df_4h : List Candle) (i : Nat) (st : BTState) : BTState :=
  match df[i]? with
  | none => st
  | some candle =>
    let pattern := detect_patterns df i
    let st :=
      if pattern.isSome then
        { st with patterns_detected := st.patterns_detected + 1 }
      else st
    let st := exitPhase cfg df_4h candle st
    entryPhase cfg symbol timeframe df_4h candle pattern st

/-- The whole candle loop `for i in range(2, len(df))`. -/
def backtestLoop (cfg : BTConfig) (symbol timeframe : String)
    (df df_4h : List Candle) : BTState :=
  (List.range' 2 (df.length - 2)).foldl
    (fun st i => stepCandle cfg symbol timeframe df df_4h i st)
    initialBTState

/-- The "force close any open position at end" block (`app/strategy.py`
lines 172-196). -/
def forcedClosePhase (cfg : BTConfig) (df_4h : List Candle)
    (last_candle : Candle) (st : BTState) : BTState :=
  match st.current_position with
  | none => st
  | some cp =>
    let emas := get_ema_at_timestamp df_4h last_candle.timestamp
      cfg.ema_short_period cfg.ema_long_period
    let closed :=
      { cp with
        exit_time := some last_candle.timestamp
        exit_price := some last_candle.close
        exit_reason := some ExitReason.FORCED_CLOSE
        exit_ema_short := emas.1
        exit_ema_long := emas.2 }
    let closed := closed.calculate_pnl last_candle.close cfg.fee_percent
    recordClosed st closed

/-- Per-run results (`app/types.py`, class BacktestResult). -/
structure BacktestResult where
  symbol : String
  timeframe : String
  positions : List Position := []
  total_trades : Nat := 0
  winning_trades : Nat := 0
  losing_trades : Nat := 0
  win_rate : ℚ := 0
  total_pnl : ℚ := 0
  total_fees : ℚ := 0
  net_pnl : ℚ := 0
  avg_win : ℚ := 0
  avg_loss : ℚ := 0
  max_drawdown : ℚ := 0
  sharpe_ratio : ℚ := 0
  hodl_return : ℚ := 0
  hodl_pnl : ℚ := 0
  first_price : ℚ := 0
  last_price : ℚ := 0
  start_date : Option Nat := none
  end_date : Option Nat := none
  ema_filter_blocked : Nat := 0
  patterns_detected : Nat := 0
deriving DecidableEq, Repr

/-- Aggregate-statistics block (`app/strategy.py` lines 198-213):
win rate and the P&L/fee sums, plus average win/loss over the winning
and non-winning positions when those subsets are non-empty (the fields
keep their previous value — the 0.0 default — otherwise). -/
def aggregateStats (r : BacktestResult) : BacktestResult :=
  if r.total_trades > 0 then
    let winning_positions := r.positions.filter (fun p => p.net_pnl > 0)
    let losing_positions := r.positions.filter (fun p => ¬ p.net_pnl > 0)
    { r with
      win_rate := (r.winning_trades : ℚ) / (r.total_trades : ℚ)
      total_pnl := (r.positions.map (fun p => p.pnl)).sum
      total_fees := (r.positions.map (fun p => p.fees)).sum
      net_pnl := (r.positions.map (fun p => p.net_pnl)).sum
      avg_win :=
        if winning_positions.length > 0 then
          (winning_positions.map (fun p => p.net_pnl)).sum /
            (winning_positions.length : ℚ)
        else r.avg_win
      avg_loss :=
        if losing_positions.length > 0 then
          (losing_positions.map (fun p => p.net_pnl)).sum /
            (losing_positions.length : ℚ)
        else r.avg_loss }
  else r

/-- `Backtester.backtest` (`app/strategy.py` lines 43-214). -/
def backtest (cfg : BTConfig) (symbol timeframe : String)
    (df df_4h : List Candle) : BacktestResult :=
  let result0 : BacktestResult :=
    { symbol := symbol
      timeframe := timeframe
      start_date := (df.map (fun c => c.timestamp)).min?
      end_date := (df.map (fun c => c.timestamp)).max? }
  if df.length < 3 then result0
  else
    match df.head?, df.getLast? with
    | some first_candle, some last_candle =>
      let first_price := first_candle.close
      let last_price := last_candle.close
      let hodl_return := (last_price - first_price) / first_price
      let result1 :=
        { result0 with
          first_price := first_price
          last_price := last_price
          hodl_return := hodl_return
          hodl_pnl := cfg.trade_amount * hodl_return }
      let st := backtestLoop cfg symbol timeframe df df_4h
      let st := forcedClosePhase cfg df_4h last_candle st
      let result2 :=
        { result1 with
          positions := st.positions
          total_trades := st.total_trades
          winning_trades := st.winning_trades
          losing_trades := st.losing_trades
          ema_filter_blocked := st.ema_filter_blocked
          patterns_detected := st.patterns_detected }
      aggregateStats result2
    | _, _ => result0

/-! ### Helper definitions and lemmas for the verification -/

/-- The part of `get_ema_at_timestamp` downstream of the completeness
filter, as a function of the filtered candle list alone. -/
def emaOfCompleted (completed_candles : List Candle)
    (short_period long_period : Nat) : Option ℚ × Option ℚ :=
  if completed_candles.length = 0 then (none, none)
  else if completed_candles.length < max short_period long_period then
    (none, none)
  else
    let prices := completed_candles.map (fun c => c.close)
    ((calculate_ema prices short_period).getLast?,
      (calculate_ema prices long_period).getLast?)

theorem get_ema_eq_emaOfCompleted (df : List Candle) (t sp lp : Nat) :
    get_ema_at_timestamp df t sp lp =
      emaOfCompleted (filter_complete_candles df t) sp lp := by
  cases df with
  | nil => simp [get_ema_at_timestamp, filter_complete_candles, emaOfCompleted]
  | cons c cs => simp [get_ema_at_timestamp, emaOfCompleted]

/-- Candles used in witnesses. -/
def mkCandle (ts : Nat) (o h l c : ℚ) (ct : Nat) : Candle :=
  { timestamp := ts, open_ := o, high := h, low := l, close := c,
    volume := 0, close_time := ct, quote_volume := 0, trades := 0,
    taker_buy_base_volume := 0, taker_buy_quote_volume := 0 }

/-! ### C1: no look-ahead in the trend filter -/

/-- C1.  No-look-ahead of the trend filter: `get_ema_at_timestamp`
depends only on the subsequence of candles whose `close_time` is
strictly less than the target timestamp — any two reference series that
agree on that subsequence produce identical EMA pairs, so no candle with
`close_time ≥ targetTime` ever influences either returned value. -/
theorem ema_no_lookahead (df df' : List Candle) (t sp lp : Nat)
    (h : filter_complete_candles df t = filter_complete_candles df' t) :
    get_ema_at_timestamp df t sp lp = get_ema_at_timestamp df' t sp lp := by
  rw [get_ema_eq_emaOfCompleted, get_ema_eq_emaOfCompleted, h]

/-- Witness for C1: a series holding only a candle that closes at or
after the target time is indistinguishable from the empty series. -/
theorem ema_no_lookahead_witness :
    filter_complete_candles [mkCandle 4 1 2 1 2 10] 5 =
        filter_complete_candles [] 5 ∧
      get_ema_at_timestamp [mkCandle 4 1 2 1 2 10] 5 1 2 =
        get_ema_at_timestamp [] 5 1 2 := by
  have hf : filter_complete_candles [mkCandle 4 1 2 1 2 10] 5 =
      filter_complete_candles [] 5 := by
    simp [filter_complete_candles, mkCandle]
  exact ⟨hf, ema_no_lookahead [mkCandle 4 1 2 1 2 10] [] 5 1 2 hf⟩

/-! ### C7: P&L postcondition -/

/-- C7.  Closing a position with entry price `p > 0`, quantity `q`, exit
price `e` and fee fraction `f` sets `pnl = (e − p)·q`,
`fees = p·q·f + e·q·f`, `net_pnl = pnl − fees`,
`pnl_percent = (e − p)/p`, and the close-recording step counts the trade
as winning iff `net_pnl > 0`. -/
theorem calculate_pnl_spec (pos : Position) (e f : ℚ) (st : BTState)
    (hp : 0 < pos.entry_price) (he : pos.exit_price = none) :
    (pos.calculate_pnl e f).pnl = (e - pos.entry_price) * pos.quantity ∧
    (pos.calculate_pnl e f).fees =
      pos.entry_price * pos.quantity * f + e * pos.quantity * f ∧
    (pos.calculate_pnl e f).net_pnl =
      (pos.calculate_pnl e f).pnl - (pos.calculate_pnl e f).fees ∧
    (pos.calculate_pnl e f).pnl_percent =
      (e - pos.entry_price) / pos.entry_price ∧
    (recordClosed st (pos.calculate_pnl e f)).winning_trades =
      (if (pos.calculate_pnl e f).net_pnl > 0 then st.winning_trades + 1
        else st.winning_trades) := by
  simp [Position.calculate_pnl, recordClosed, he]

/-- Position used in concrete P&L witnesses. -/
def posC : Position :=
  { symbol := "BTCUSDC", timeframe := "1h", entry_time := 0,
    entry_price := 100, quantity := 1, pattern := PatternType.HAMMER,
    entry_ema_short := 2, entry_ema_long := 1 }

/-- Witness for C7, on the spec's concrete scenario: entry 100,
quantity 1, exit 100.9, fee 0.001 gives pnl 0.9, fees 0.2009,
net 0.6991. -/
theorem calculate_pnl_spec_witness :
    ((posC.calculate_pnl (1009 / 10) (1 / 1000)).pnl =
        (1009 / 10 - posC.entry_price) * posC.quantity ∧
      (posC.calculate_pnl (1009 / 10) (1 / 1000)).fees =
        posC.entry_price * posC.quantity * (1 / 1000) +
          (1009 / 10) * posC.quantity * (1 / 1000) ∧
      (posC.calculate_pnl (1009 / 10) (1 / 1000)).net_pnl =
        (posC.calculate_pnl (1009 / 10) (1 / 1000)).pnl -
          (posC.calculate_pnl (1009 / 10) (1 / 1000)).fees ∧
      (posC.calculate_pnl (1009 / 10) (1 / 1000)).pnl_percent =
        (1009 / 10 - posC.entry_price) / posC.entry_price ∧
      (recordClosed initialBTState
          (posC.calculate_pnl (1009 / 10) (1 / 1000))).winning_trades =
        (if (posC.calculate_pnl (1009 / 10) (1 / 1000)).net_pnl > 0 then
          initialBTState.winning_trades + 1 else
          initialBTState.winning_trades)) ∧
    (posC.calculate_pnl (1009 / 10) (1 / 1000)).pnl = 9 / 10 ∧
    (posC.calculate_pnl (1009 / 10) (1 / 1000)).fees = 2009 / 10000 ∧
    (posC.calculate_pnl (1009 / 10) (1 / 1000)).net_pnl = 6991 / 10000 := by
  refine ⟨calculate_pnl_spec posC (1009 / 10) (1 / 1000) initialBTState
    (by norm_num [posC]) rfl, ?_, ?_, ?_⟩ <;>
    norm_num [posC, Position.calculate_pnl]

/-! ### C8: insufficient history degrades, never raises -/

/-- C8.  Degradation on insufficient history: a trading series with
fewer than 3 candles produces an empty result (no positions, zero
trades), and an EMA query with fewer than `max(shortPeriod, longPeriod)`
reference candles closed strictly before the query time returns
`(none, none)`.  The embedded functions are total, so no exception can
arise. -/
theorem insufficient_history_degrades :
    (∀ df t sp lp, (filter_complete_candles df t).length < max sp lp →
      get_ema_at_timestamp df t sp lp = (none, none)) ∧
    (∀ cfg sym tf df df_4h, df.length < 3 →
      (backtest cfg sym tf df df_4h).positions = [] ∧
      (backtest cfg sym tf df df_4h).total_trades = 0) := by
  constructor
  · intro df t sp lp h
    rw [get_ema_eq_emaOfCompleted]
    unfold emaOfCompleted
    by_cases h0 : (filter_complete_candles df t).length = 0
    · simp [h0]
    · simp [h0, h]
  · intro cfg sym tf df df_4h h
    simp [backtest, h]

/-- Witness for C8: the empty reference series (0 < max 1 2 completed
candles) yields `(none, none)`, and a 2-candle trading series yields the
empty result. -/
theorem insufficient_history_degrades_witness :
    get_ema_at_timestamp [] 0 1 2 = (none, none) ∧
    (backtest (mkBacktester none none none none) "BTCUSDC" "1h"
      [mkCandle 0 1 2 1 2 1, mkCandle 2 1 2 1 2 3] []).positions = [] ∧
    (backtest (mkBacktester none none none none) "BTCUSDC" "1h"
      [mkCandle 0 1 2 1 2 1, mkCandle 2 1 2 1 2 3] []).total_trades = 0 := by
  refine ⟨insufficient_history_degrades.1 [] 0 1 2 (by simp [filter_complete_candles]),
    (insufficient_history_degrades.2 (mkBacktester none none none none)
      "BTCUSDC" "1h" [mkCandle 0 1 2 1 2 1, mkCandle 2 1 2 1 2 3] []
      (by simp)).1,
    (insufficient_history_degrades.2 (mkBacktester none none none none)
      "BTCUSDC" "1h" [mkCandle 0 1 2 1 2 1, mkCandle 2 1 2 1 2 3] []
      (by simp)).2⟩

/-! ### C10: falsy constructor arguments fall back to the defaults -/

theorem pyOr_ne_zero (a : Option ℚ) (d : ℚ) (hd : d ≠ 0) : pyOr a d ≠ 0 := by
  cases a with
  | none => simpa [pyOr] using hd
  | some v =>
    by_cases hv : v = 0
    · simpa [pyOr, hv] using hd
    · simpa [pyOr, hv] using hv

/-- C10.  Passing `0` for `trade_amount`, `fee_percent`, `take_profit`
or `stop_loss` to the `Backtester` constructor behaves identically to
passing no value at all (the falsy argument is replaced by the global
settings default), and consequently none of the four configured values
can ever be zero. -/
theorem mkBacktester_falsy_zero :
    (∀ b c d, mkBacktester (some 0) b c d = mkBacktester none b c d) ∧
    (∀ a c d, mkBacktester a (some 0) c d = mkBacktester a none c d) ∧
    (∀ a b d, mkBacktester a b (some 0) d = mkBacktester a b none d) ∧
    (∀ a b c, mkBacktester a b c (some 0) = mkBacktester a b c none) ∧
    (∀ a b c d, (mkBacktester a b c d).trade_amount ≠ 0 ∧
      (mkBacktester a b c d).fee_percent ≠ 0 ∧
      (mkBacktester a b c d).take_profit ≠ 0 ∧
      (mkBacktester a b c d).stop_loss ≠ 0) := by
  refine ⟨?_, ?_, ?_, ?_, ?_⟩
  · intro b c d; simp [mkBacktester, pyOr]
  · intro a c d; simp [mkBacktester, pyOr]
  · intro a b d; simp [mkBacktester, pyOr]
  · intro a b c; simp [mkBacktester, pyOr]
  · intro a b c d
    refine ⟨pyOr_ne_zero a _ (by norm_num [settings_trade_amount]),
      pyOr_ne_zero b _ (by norm_num [settings_trade_fee_percent]),
      pyOr_ne_zero c _ (by norm_num [settings_take_profit_percent]),
      pyOr_ne_zero d _ (by norm_num [settings_stop_loss_percent])⟩

/-! ### Structural lemmas about the loop phases -/

theorem calculate_pnl_keeps (q : Position) (e f : ℚ) :
    (q.calculate_pnl e f).symbol = q.symbol ∧
    (q.calculate_pnl e f).timeframe = q.timeframe ∧
    (q.calculate_pnl e f).entry_time = q.entry_time ∧
    (q.calculate_pnl e f).entry_price = q.entry_price ∧
    (q.calculate_pnl e f).quantity = q.quantity ∧
    (q.calculate_pnl e f).pattern = q.pattern ∧
    (q.calculate_pnl e f).entry_ema_short = q.entry_ema_short ∧
    (q.calculate_pnl e f).entry_ema_long = q.entry_ema_long ∧
    (q.calculate_pnl e f).exit_time = q.exit_time ∧
    (q.calculate_pnl e f).exit_reason = q.exit_reason := by
  simp [Position.calculate_pnl]

theorem calculate_pnl_exit_price_some (q : Position) (p e f : ℚ)
    (h : q.exit_price = some p) : (q.calculate_pnl e f).exit_price = some p := by
  simp [Position.calculate_pnl, h]

/-- Exhaustive description of what `entryPhase` can do. -/
theorem entryPhase_cases (cfg : BTConfig) (sym tf : String)
    (df_4h : List Candle) (candle : Candle) (pattern : Option PatternType)
    (st : BTState) :
    entryPhase cfg sym tf df_4h candle pattern st = st ∨
    entryPhase cfg sym tf df_4h candle pattern st =
      { st with ema_filter_blocked := st.ema_filter_blocked + 1 } ∨
    (st.current_position = none ∧ ∃ p s l, pattern = some p ∧
      is_bullish_pattern (some p) = true ∧
      get_ema_at_timestamp df_4h candle.timestamp cfg.ema_short_period
        cfg.ema_long_period = (some s, some l) ∧
      l < s ∧
      entryPhase cfg sym tf df_4h candle pattern st =
        { st with current_position := some (
          { symbol := sym, timeframe := tf, entry_time := candle.timestamp,
            entry_price := candle.close,
            quantity := cfg.trade_amount / candle.close,
            pattern := p, entry_ema_short := s,
            entry_ema_long := l } : Position) }) := by
  rcases hcp : st.current_position with _ | cp
  · rcases pattern with _ | p
    · left; simp [entryPhase, hcp]
    · by_cases hb : is_bullish_pattern (some p) = true
      · rcases hE : get_ema_at_timestamp df_4h candle.timestamp
            cfg.ema_short_period cfg.ema_long_period with ⟨os, ol⟩
        rcases os with _ | s
        · left; simp [entryPhase, hcp, hE, hb]
        · rcases ol with _ | l
          · left; simp [entryPhase, hcp, hE, hb]
          · by_cases hgt : s > l
            · refine Or.inr (Or.inr ⟨rfl, p, s, l, rfl, hb, rfl, hgt, ?_⟩)
              simp [entryPhase, hcp, hE, hb, hgt]
            · refine Or.inr (Or.inl ?_)
              simp [entryPhase, hcp, hE, hb, hgt]
      · simp only [Bool.not_eq_true] at hb
        left; simp [entryPhase, hcp, hb]
  · left; simp [entryPhase, hcp]

theorem entryPhase_positions (cfg : BTConfig) (sym tf : String)
    (df_4h : List Candle) (candle : Candle) (pattern : Option PatternType)
    (st : BTState) :
    (entryPhase cfg sym tf df_4h candle pattern st).positions = st.positions := by
  rcases entryPhase_cases cfg sym tf df_4h candle pattern st with h | h |
    ⟨_, _, _, _, _, _, _, _, h⟩ <;> rw [h]

theorem entryPhase_total_trades (cfg : BTConfig) (sym tf : String)
    (df_4h : List Candle) (candle : Candle) (pattern : Option PatternType)
    (st : BTState) :
    (entryPhase cfg sym tf df_4h candle pattern st).total_trades =
      st.total_trades := by
  rcases entryPhase_cases cfg sym tf df_4h candle pattern st with h | h |
    ⟨_, _, _, _, _, _, _, _, h⟩ <;> rw [h]

/-- The position closed by `exitPhase`, before P&L. -/
def closeUpdate (cfg : BTConfig) (df_4h : List Candle) (candle : Candle)
    (cp : Position) (reason : ExitReason) (price : ℚ) : Position :=
  { cp with
    exit_time := some candle.timestamp
    exit_price := some price
    exit_reason := some reason
    exit_ema_short := (get_ema_at_timestamp df_4h candle.timestamp
      cfg.ema_short_period cfg.ema_long_period).1
    exit_ema_long := (get_ema_at_timestamp df_4h candle.timestamp
      cfg.ema_short_period cfg.ema_long_period).2 }

/-- Exhaustive description of what `exitPhase` can do. -/
theorem exitPhase_cases (cfg : BTConfig) (df_4h : List Candle)
    (candle : Candle) (st : BTState) :
    exitPhase cfg df_4h candle st = st ∨
    ∃ cp reason price, st.current_position = some cp ∧
      evalExit cfg df_4h candle cp = some (reason, price) ∧
      exitPhase cfg df_4h candle st =
        recordClosed st ((closeUpdate cfg df_4h candle cp reason
          price).calculate_pnl price cfg.fee_percent) := by
  rcases hcp : st.current_position with _ | cp
  · left; simp [exitPhase, hcp]
  · rcases hE : evalExit cfg df_4h candle cp with _ | ⟨reason, price⟩
    · left; simp [exitPhase, hcp, hE]
    · refine Or.inr ⟨cp, reason, price, rfl, hE, ?_⟩
      simp [exitPhase, hcp, hE, closeUpdate]

theorem evalExit_tp (cfg : BTConfig) (df_4h : List Candle) (candle : Candle)
    (cp : Position)
    (htp : cfg.take_profit ≤ (candle.close - cp.entry_price) / cp.entry_price) :
    evalExit cfg df_4h candle cp =
      some (ExitReason.TAKE_PROFIT, cp.entry_price * (1 + cfg.take_profit)) := by
  unfold evalExit
  simp only [ge_iff_le]
  rw [if_pos htp]

theorem evalExit_ne_forced (cfg : BTConfig) (df_4h : List Candle)
    (candle : Candle) (cp : Position) (reason : ExitReason) (price : ℚ)
    (h : evalExit cfg df_4h candle cp = some (reason, price)) :
    reason ≠ ExitReason.FORCED_CLOSE := by
  intro hr
  subst hr
  unfold evalExit at h
  simp only [ge_iff_le] at h
  split_ifs at h with h1 h2 h3
  · simp at h
  · simp at h
  · rcases hE : get_ema_at_timestamp df_4h candle.timestamp
        cfg.ema_short_period cfg.ema_long_period with ⟨os, ol⟩
    rw [hE] at h
    rcases os with _ | s
    · simp at h
    · rcases ol with _ | l
      · simp at h
      · by_cases hsl : s < l
        · simp [hsl] at h
        · simp [hsl] at h

/-! ### C2: exit precedence, take-profit first -/

/-- C2.  Exit precedence: with an open position, whenever the candle
close makes the unrealized return reach the take-profit threshold — in
particular when it simultaneously satisfies the stop-loss threshold —
the step closes the position with reason TakeProfit at the idealized
fill price `entry_price × (1 + takeProfitPct)`, not the candle close
(the take-profit branch is evaluated before stop-loss and EMA-bearish). -/
theorem exit_precedence_take_profit (cfg : BTConfig) (sym tf : String)
    (df df_4h : List Candle) (i : Nat) (candle : Candle) (st : BTState)
    (cp : Position)
    (hc : df[i]? = some candle)
    (hcp : st.current_position = some cp)
    (htp : cfg.take_profit ≤ (candle.close - cp.entry_price) / cp.entry_price)
    (hsl : (candle.close - cp.entry_price) / cp.entry_price ≤ cfg.stop_loss) :
    ∃ closed, (stepCandle cfg sym tf df df_4h i st).positions =
        st.positions ++ [closed] ∧
      closed.exit_reason = some ExitReason.TAKE_PROFIT ∧
      closed.exit_price = some (cp.entry_price * (1 + cfg.take_profit)) := by
  have hEval := evalExit_tp cfg df_4h candle cp htp
  refine ⟨(closeUpdate cfg df_4h candle cp ExitReason.TAKE_PROFIT
    (cp.entry_price * (1 + cfg.take_profit))).calculate_pnl
      (cp.entry_price * (1 + cfg.take_profit)) cfg.fee_percent, ?_, ?_, ?_⟩
  · simp only [stepCandle, hc]
    rw [entryPhase_positions]
    by_cases hpd : (detect_patterns df i).isSome = true <;>
      simp [hpd, exitPhase, hcp, hEval, recordClosed, closeUpdate]
  · rw [(calculate_pnl_keeps _ _ _).2.2.2.2.2.2.2.2.2]
    simp [closeUpdate]
  · exact calculate_pnl_exit_price_some _ _ _ _ (by simp [closeUpdate])

/-- Witness for C2: a synthetic adversarial configuration with
`takeProfit = 0.01 ≤ stopLoss = 0.02`, entry 100 and close 101.5, so the
unrealized return 0.015 satisfies both thresholds at once; applying the
theorem closes the trade as TakeProfit at 101. -/
theorem exit_precedence_take_profit_witness :
    ∃ closed,
      (stepCandle
        { trade_amount := 100, fee_percent := 1 / 1000,
          take_profit := 1 / 100, stop_loss := 2 / 100,
          ema_short_period := 1, ema_long_period := 2 }
        "BTCUSDC" "1h" [mkCandle 0 1 2 1 2 1, mkCandle 2 1 2 1 2 3,
          mkCandle 4 100 102 99 (203 / 2) 5] []
        2 { initialBTState with current_position := some posC }).positions =
        { initialBTState with current_position := some posC }.positions ++
          [closed] ∧
      closed.exit_reason = some ExitReason.TAKE_PROFIT ∧
      closed.exit_price = some (posC.entry_price * (1 + 1 / 100)) := by
  exact exit_precedence_take_profit _ "BTCUSDC" "1h" _ [] 2
    (mkCandle 4 100 102 99 (203 / 2) 5) _ posC rfl rfl
    (by norm_num [mkCandle, posC]) (by norm_num [mkCandle, posC])

/-! ### C5: pattern detection priority and the zero-range clause -/

theorem hammer_zero_range (c : Candle) (h : c.high = c.low) :
    detect_hammer c = false := by
  simp [detect_hammer, h]

theorem shooting_star_zero_range (c : Candle) (h : c.high = c.low) :
    detect_shooting_star c = false := by
  simp [detect_shooting_star, h]

theorem doji_zero_range (c : Candle) (h : c.high = c.low) :
    detect_doji c = false := by
  simp [detect_doji, h]

/-- C5 counterexample: the claim "a zero-range candle (high = low) never
matches any pattern" is false on the code.  The engulfing detectors never
inspect high/low, so a price-inconsistent candle with `high = low = 5`
but `open = 4`, `close = 11` still matches Bullish Engulfing. -/
theorem detect_zero_range_cex :
    (mkCandle 2 4 5 5 11 3).high = (mkCandle 2 4 5 5 11 3).low ∧
    detect_patterns [mkCandle 0 10 11 4 5 1, mkCandle 2 4 5 5 11 3] 1 =
      some PatternType.BULLISH_ENGULFING := by
  norm_num [mkCandle, detect_patterns, detect_hammer, detect_shooting_star,
    detect_doji, detect_bullish_engulfing]

/-- C5 (amended).  `detect_patterns` is a deterministic total Lean
function of its candle window evaluated in the fixed priority order with
the first match winning: a candle satisfying the Hammer predicate always
classifies as Hammer (even when it also satisfies Doji), Shooting Star
wins over Doji, and an unmatched window yields `none` (the return type
is `Option`).  A zero-range candle (`high = low`) whose open and close
lie within the low/high range — every real OHLC candle — never matches
any pattern; the zero-range clause is restricted to price-consistent
candles because the engulfing and star detectors never inspect
high/low. -/
theorem detect_priority_and_zero_range (df : List Candle) (index : Nat)
    (c : Candle) (hget : df[index]? = some c) :
    (detect_hammer c = true → detect_patterns df index = some PatternType.HAMMER) ∧
    (detect_hammer c = false → detect_shooting_star c = true →
      detect_patterns df index = some PatternType.SHOOTING_STAR) ∧
    (detect_hammer c = false → detect_shooting_star c = false →
      detect_doji c = true → detect_patterns df index = some PatternType.DOJI) ∧
    (c.high = c.low → c.low ≤ min c.open_ c.close →
      max c.open_ c.close ≤ c.high → detect_patterns df index = none) := by
  refine ⟨?_, ?_, ?_, ?_⟩
  · intro hh; simp [detect_patterns, hget, hh]
  · intro hh hs; simp [detect_patterns, hget, hh, hs]
  · intro hh hs hd; simp [detect_patterns, hget, hh, hs, hd]
  · intro hzr hlo hhi
    have hoc : c.close ≤ c.open_ ∧ c.open_ ≤ c.close := by
      constructor
      · calc c.close ≤ max c.open_ c.close := le_max_right _ _
          _ ≤ c.high := hhi
          _ = c.low := hzr
          _ ≤ min c.open_ c.close := hlo
          _ ≤ c.open_ := min_le_left _ _
      · calc c.open_ ≤ max c.open_ c.close := le_max_left _ _
          _ ≤ c.high := hhi
          _ = c.low := hzr
          _ ≤ min c.open_ c.close := hlo
          _ ≤ c.close := min_le_right _ _
    have hbull : ∀ p, detect_bullish_engulfing p c = false := by
      intro p; simp [detect_bullish_engulfing, hoc.1]
    have hbear : ∀ p, detect_bearish_engulfing p c = false := by
      intro p; simp [detect_bearish_engulfing, hoc.2]
    have hmorn : ∀ a b, detect_morning_star a b c = false := by
      intro a b; simp [detect_morning_star, hoc.1]
    have heven : ∀ a b, detect_evening_star a b c = false := by
      intro a b; simp [detect_evening_star, hoc.2]
    rcases hp1 : df[index - 1]? with _ | prev <;>
      rcases hp2 : df[index - 2]? with _ | fst <;>
      simp [detect_patterns, hget, hp1, hp2, hammer_zero_range c hzr,
        shooting_star_zero_range c hzr, doji_zero_range c hzr,
        hbull, hbear, hmorn, heven]

/-- Witness for C5 (amended): a concrete candle satisfying both the
Hammer and Doji thresholds classifies as Hammer, and a degenerate
price-consistent candle (all four prices equal) matches nothing. -/
theorem detect_priority_and_zero_range_witness :
    detect_hammer (mkCandle 0 10 10 8 10 1) = true ∧
    detect_doji (mkCandle 0 10 10 8 10 1) = true ∧
    detect_patterns [mkCandle 0 10 10 8 10 1] 0 =
      some PatternType.HAMMER ∧
    detect_patterns [mkCandle 0 5 5 5 5 1] 0 = none := by
  have h1 : detect_hammer (mkCandle 0 10 10 8 10 1) = true := by
    norm_num [detect_hammer, mkCandle]
  have h2 : detect_doji (mkCandle 0 10 10 8 10 1) = true := by
    norm_num [detect_doji, mkCandle]
  refine ⟨h1, h2,
    (detect_priority_and_zero_range [mkCandle 0 10 10 8 10 1] 0 _
      rfl).1 h1,
    (detect_priority_and_zero_range [mkCandle 0 5 5 5 5 1] 0 _
      rfl).2.2.2 (by norm_num [mkCandle]) (by norm_num [mkCandle])
      (by norm_num [mkCandle])⟩

/-! ### C9: handling of absent trend-filter values -/

/-- C9.  At an entry opportunity (flat state, bullish pattern) the
`ema_filter_blocked` counter is incremented iff both EMA values are
present with short ≤ long; if either EMA value is absent the entry phase
is a no-op (no entry, no counter change); and with an open position in
loss, an absent EMA pair never produces the EMA-bearish exit — when
neither take-profit nor stop-loss fires either, the whole exit phase is
a no-op and the position is held. -/
theorem absent_ema_handling (cfg : BTConfig) (sym tf : String)
    (df_4h : List Candle) (candle : Candle) (st : BTState) :
    (∀ p, st.current_position = none → is_bullish_pattern (some p) = true →
      (((entryPhase cfg sym tf df_4h candle (some p) st).ema_filter_blocked =
          st.ema_filter_blocked + 1) ↔
        (∃ s l, get_ema_at_timestamp df_4h candle.timestamp
          cfg.ema_short_period cfg.ema_long_period = (some s, some l) ∧
          s ≤ l))) ∧
    (∀ pattern, st.current_position = none →
      ((get_ema_at_timestamp df_4h candle.timestamp cfg.ema_short_period
          cfg.ema_long_period).1 = none ∨
        (get_ema_at_timestamp df_4h candle.timestamp cfg.ema_short_period
          cfg.ema_long_period).2 = none) →
      entryPhase cfg sym tf df_4h candle pattern st = st) ∧
    (∀ cp, st.current_position = some cp →
      (candle.close - cp.entry_price) / cp.entry_price < 0 →
      ((get_ema_at_timestamp df_4h candle.timestamp cfg.ema_short_period
          cfg.ema_long_period).1 = none ∨
        (get_ema_at_timestamp df_4h candle.timestamp cfg.ema_short_period
          cfg.ema_long_period).2 = none) →
      (∀ pr, evalExit cfg df_4h candle cp ≠
        some (ExitReason.EMA_BEARISH, pr)) ∧
      (¬ cfg.take_profit ≤ (candle.close - cp.entry_price) / cp.entry_price →
        ¬ (candle.close - cp.entry_price) / cp.entry_price ≤ cfg.stop_loss →
        exitPhase cfg df_4h candle st = st)) := by
  rcases hE : get_ema_at_timestamp df_4h candle.timestamp
    cfg.ema_short_period cfg.ema_long_period with ⟨os, ol⟩
  refine ⟨?_, ?_, ?_⟩
  · intro p hcp hb
    rcases os with _ | s
    · simp [entryPhase, hcp, hE, hb]
    · rcases ol with _ | l
      · simp [entryPhase, hcp, hE, hb]
      · by_cases hgt : s > l
        · simp [entryPhase, hcp, hE, hb, hgt, hgt.not_le]
        · simp [entryPhase, hcp, hE, hb, hgt]
          exact ⟨s, l, ⟨rfl, rfl⟩, le_of_not_lt hgt⟩
  · intro pattern hcp habs
    rcases pattern with _ | p
    · simp [entryPhase, hcp]
    · by_cases hb : is_bullish_pattern (some p) = true
      · rcases os with _ | s
        · simp [entryPhase, hcp, hE, hb]
        · rcases ol with _ | l
          · simp [entryPhase, hcp, hE, hb]
          · rcases habs with h | h <;> simp [hE] at h
      · simp only [Bool.not_eq_true] at hb
        simp [entryPhase, hcp, hb]
  · intro cp hcp hloss habs
    constructor
    · intro pr hEq
      unfold evalExit at hEq
      simp only [ge_iff_le] at hEq
      split_ifs at hEq with h1 h2 h3
      · simp at hEq
      · simp at hEq
      · rw [hE] at hEq
        rcases habs with h | h <;> rcases os with _ | s <;>
          rcases ol with _ | l <;> simp at h hEq ⊢
    · intro h1 h2
      have hnone : evalExit cfg df_4h candle cp = none := by
        unfold evalExit
        simp only [ge_iff_le]
        rw [if_neg h1, if_neg h2, if_pos hloss, hE]
        rcases habs with h | h <;> rcases os with _ | s <;>
          rcases ol with _ | l <;> simp at h ⊢
      simp [exitPhase, hcp, hnone]

/-- Reference series used in witnesses: two candles closing at times 1
and 3 with close prices 2 and 1, so at target time 10 with periods 1 and
2 the EMA pair is `(some 1, some (4/3))` — both present, short ≤ long. -/
def wRef : List Candle := [mkCandle 0 2 2 2 2 1, mkCandle 2 1 1 1 1 3]

def cfgW : BTConfig :=
  { trade_amount := 100, fee_percent := 1 / 1000, take_profit := 8 / 100,
    stop_loss := -6 / 100, ema_short_period := 1, ema_long_period := 2 }

theorem wRef_ema : get_ema_at_timestamp wRef 10 1 2 = (some 1, some (4 / 3)) := by
  norm_num [get_ema_at_timestamp, filter_complete_candles, calculate_ema,
    emaTail, wRef, mkCandle]

/-- Witness for C9: (a) a flat state with a Hammer and EMA pair
`(1, 4/3)` (short ≤ long) increments the blocked counter; (b) on an
empty reference series the entry phase is a no-op; (c) a position at
entry 100 seeing close 99 (in loss, not hitting TP/SL) with no EMA data
is held, and EMA-bearish can never fire. -/
theorem absent_ema_handling_witness :
    (entryPhase cfgW "BTCUSDC" "1h" wRef (mkCandle 10 1 2 1 2 11)
        (some PatternType.HAMMER) initialBTState).ema_filter_blocked =
      initialBTState.ema_filter_blocked + 1 ∧
    entryPhase cfgW "BTCUSDC" "1h" [] (mkCandle 10 1 2 1 2 11)
      (some PatternType.HAMMER) initialBTState = initialBTState ∧
    (∀ pr, evalExit cfgW [] (mkCandle 10 99 100 98 99 11) posC ≠
      some (ExitReason.EMA_BEARISH, pr)) ∧
    exitPhase cfgW [] (mkCandle 10 99 100 98 99 11)
        { initialBTState with current_position := some posC } =
      { initialBTState with current_position := some posC } := by
  have hempty : (get_ema_at_timestamp ([] : List Candle) 10 1 2).1 = none := by
    simp [get_ema_at_timestamp]
  have h3 := (absent_ema_handling cfgW "BTCUSDC" "1h" []
      (mkCandle 10 99 100 98 99 11)
      { initialBTState with current_position := some posC }).2.2 posC rfl
    (by norm_num [mkCandle, posC]) (Or.inl hempty)
  refine ⟨?_, ?_, h3.1, h3.2 (by norm_num [mkCandle, posC, cfgW])
    (by norm_num [mkCandle, posC, cfgW])⟩
  · exact ((absent_ema_handling cfgW "BTCUSDC" "1h" wRef
      (mkCandle 10 1 2 1 2 11) initialBTState).1 PatternType.HAMMER rfl
      (by decide)).mpr ⟨1, 4 / 3, by simpa [cfgW, mkCandle] using wRef_ema,
        by norm_num⟩
  · exact (absent_ema_handling cfgW "BTCUSDC" "1h" []
      (mkCandle 10 1 2 1 2 11) initialBTState).2.1
      (some PatternType.HAMMER) rfl (Or.inl hempty)

/-! ### C3: run-level entry guard -/

/-- The conditions under which `backtest` opens a position: a candle at
some index `i ≥ 2` at which a bullish pattern was detected and at whose
timestamp the trend filter returned both EMAs with short strictly above
long, the entry fields recording that candle's data. -/
def EntryOK (cfg : BTConfig) (df df_4h : List Candle) (p : Position) : Prop :=
  ∃ i c, 2 ≤ i ∧ df[i]? = some c ∧
    is_bullish_pattern (detect_patterns df i) = true ∧
    detect_patterns df i = some p.pattern ∧
    get_ema_at_timestamp df_4h c.timestamp cfg.ema_short_period
      cfg.ema_long_period = (some p.entry_ema_short, some p.entry_ema_long) ∧
    p.entry_ema_long < p.entry_ema_short ∧
    p.entry_time = c.timestamp ∧
    p.entry_price = c.close ∧
    p.quantity = cfg.trade_amount / c.close

theorem EntryOK_calculate_pnl (cfg : BTConfig) (df df_4h : List Candle)
    (q : Position) (e f : ℚ) (h : EntryOK cfg df df_4h q) :
    EntryOK cfg df df_4h (q.calculate_pnl e f) := by
  obtain ⟨i, c, h1, h2, h3, h4, h5, h6, h7, h8, h9⟩ := h
  refine ⟨i, c, h1, h2, h3, ?_, ?_, ?_, ?_, ?_, ?_⟩ <;>
    simp [Position.calculate_pnl, h4, h5, h6, h7, h8, h9]

theorem EntryOK_closeUpdate (cfg cfg' : BTConfig) (df df_4h df_4h' : List Candle)
    (candle : Candle) (q : Position) (reason : ExitReason) (price : ℚ)
    (h : EntryOK cfg df df_4h q) :
    EntryOK cfg df df_4h (closeUpdate cfg' df_4h' candle q reason price) := by
  obtain ⟨i, c, h1, h2, h3, h4, h5, h6, h7, h8, h9⟩ := h
  exact ⟨i, c, h1, h2, h3, h4, h5, h6, h7, h8, h9⟩

/-- Invariant: every recorded and every currently-open position was
opened under the entry guard. -/
def EntryInv (cfg : BTConfig) (df df_4h : List Candle) (st : BTState) : Prop :=
  (∀ p ∈ st.positions, EntryOK cfg df df_4h p) ∧
  (∀ p, st.current_position = some p → EntryOK cfg df df_4h p)

theorem exitPhase_EntryInv (cfg : BTConfig) (df df_4h : List Candle)
    (candle : Candle) (st : BTState) (h : EntryInv cfg df df_4h st) :
    EntryInv cfg df df_4h (exitPhase cfg df_4h candle st) := by
  rcases exitPhase_cases cfg df_4h candle st with heq |
    ⟨cp, reason, price, hcp, _, heq⟩
  · rwa [heq]
  · rw [heq]
    constructor
    · intro p hp
      simp only [recordClosed, List.mem_append, List.mem_singleton] at hp
      rcases hp with hp | rfl
      · exact h.1 p hp
      · exact EntryOK_calculate_pnl _ _ _ _ _ _
          (EntryOK_closeUpdate _ _ _ _ _ _ _ _ _ (h.2 cp hcp))
    · intro p hp
      simp [recordClosed] at hp

theorem entryPhase_EntryInv (cfg : BTConfig) (sym tf : String)
    (df df_4h : List Candle) (i : Nat) (candle : Candle) (st : BTState)
    (hc : df[i]? = some candle) (h2 : 2 ≤ i)
    (h : EntryInv cfg df df_4h st) :
    EntryInv cfg df df_4h
      (entryPhase cfg sym tf df_4h candle (detect_patterns df i) st) := by
  rcases entryPhase_cases cfg sym tf df_4h candle (detect_patterns df i) st with
    heq | heq | ⟨hflat, p, s, l, hpat, hb, hE, hlt, heq⟩
  · rwa [heq]
  · rw [heq]
    exact ⟨fun q hq => h.1 q hq, fun q hq => h.2 q (by simpa using hq)⟩
  · rw [heq]
    refine ⟨fun q hq => h.1 q hq, fun q hq => ?_⟩
    simp only [Option.some.injEq] at hq
    subst hq
    refine ⟨i, candle, h2, hc, ?_, ?_, ?_, hlt, rfl, rfl, rfl⟩
    · rw [hpat]; exact hb
    · rw [hpat]
    · simpa using hE

theorem stepCandle_EntryInv (cfg : BTConfig) (sym tf : String)
    (df df_4h : List Candle) (i : Nat) (st : BTState)
    (h2 : 2 ≤ i) (h : EntryInv cfg df df_4h st) :
    EntryInv cfg df df_4h (stepCandle cfg sym tf df df_4h i st) := by
  rcases hc : df[i]? with _ | candle
  · simpa [stepCandle, hc] using h
  · simp only [stepCandle, hc]
    apply entryPhase_EntryInv cfg sym tf df df_4h i candle _ hc h2
    apply exitPhase_EntryInv
    split
    · exact ⟨fun q hq => h.1 q hq, fun q hq => h.2 q (by simpa using hq)⟩
    · exact h

theorem backtestLoop_EntryInv (cfg : BTConfig) (sym tf : String)
    (df df_4h : List Candle) :
    EntryInv cfg df df_4h (backtestLoop cfg sym tf df df_4h) := by
  unfold backtestLoop
  have main : ∀ (l : List Nat) (st : BTState), (∀ j ∈ l, 2 ≤ j) →
      EntryInv cfg df df_4h st →
      EntryInv cfg df df_4h (l.foldl
        (fun st i => stepCandle cfg sym tf df df_4h i st) st) := by
    intro l
    induction l with
    | nil => exact fun st _ h => h
    | cons a as ih =>
      intro st hj h
      exact ih _ (fun j hjm => hj j (List.mem_cons_of_mem a hjm))
        (stepCandle_EntryInv cfg sym tf df df_4h a st
          (hj a (List.mem_cons_self a as)) h)
  refine main _ _ (fun j hj => (List.mem_range'_1.mp hj).1) ?_
  exact ⟨by simp [initialBTState], by simp [initialBTState]⟩

theorem forcedClosePhase_EntryInv (cfg : BTConfig) (df df_4h : List Candle)
    (last_candle : Candle) (st : BTState) (h : EntryInv cfg df df_4h st) :
    EntryInv cfg df df_4h (forcedClosePhase cfg df_4h last_candle st) := by
  rcases hcp : st.current_position with _ | cp
  · simpa [forcedClosePhase, hcp] using h
  · have heq : forcedClosePhase cfg df_4h last_candle st =
        recordClosed st ((closeUpdate cfg df_4h last_candle cp
          ExitReason.FORCED_CLOSE last_candle.close).calculate_pnl
            last_candle.close cfg.fee_percent) := by
      simp [forcedClosePhase, hcp, closeUpdate]
    rw [heq]
    constructor
    · intro p hp
      simp only [recordClosed, List.mem_append, List.mem_singleton] at hp
      rcases hp with hp | rfl
      · exact h.1 p hp
      · exact EntryOK_calculate_pnl _ _ _ _ _ _
          (EntryOK_closeUpdate _ _ _ _ _ _ _ _ _ (h.2 cp hcp))
    · intro p hp
      simp [recordClosed] at hp

theorem aggregateStats_keeps (r : BacktestResult) :
    (aggregateStats r).positions = r.positions ∧
    (aggregateStats r).total_trades = r.total_trades ∧
    (aggregateStats r).winning_trades = r.winning_trades ∧
    (aggregateStats r).losing_trades = r.losing_trades := by
  unfold aggregateStats
  split_ifs <;> simp

/-- C3.  Entry guard: in every run, every position ever recorded by the
backtest (any still-open position is force-closed into the list, so this
covers every opened position) was opened at a candle index `i ≥ 2` where
a bullish pattern (Hammer, BullishEngulfing or MorningStar) was
detected and the trend filter returned both EMA values with short
strictly greater than long, and its entry fields are
`entry_price = close`, `quantity = tradeAmount / close`,
`entry_time = timestamp`, with the detected pattern and both EMAs
recorded.  Entries happen only from the flat state by construction of
`entryPhase` (it is the identity whenever `current_position` is set). -/
theorem entry_guard (cfg : BTConfig) (sym tf : String)
    (df df_4h : List Candle) :
    ∀ p ∈ (backtest cfg sym tf df df_4h).positions,
      EntryOK cfg df df_4h p := by
  intro p hp
  unfold backtest at hp
  by_cases h3 : df.length < 3
  · simp [h3] at hp
  · rcases hh : df.head? with _ | fc <;>
      rcases hl : df.getLast? with _ | lc <;>
      simp only [h3, if_false, hh, hl] at hp <;> try simp at hp
    rw [(aggregateStats_keeps _).1] at hp
    exact (forcedClosePhase_EntryInv cfg df df_4h lc _
      (backtestLoop_EntryInv cfg sym tf df df_4h)).1 p hp

/-- Trading series for the run-level witnesses: two fillers and a
Hammer candle at index 2 (timestamp 10, close 10); with `cfgW`'s
reference series `wRef` the EMA pair at time 10 is `(1, 4/3)` — no
entry there, so a bullish filter is needed: `wRef2` reverses the closes
so that short EMA 2 > long EMA 5/3. -/
def wRef2 : List Candle := [mkCandle 0 1 1 1 1 1, mkCandle 2 2 2 2 2 3]

def wDf : List Candle :=
  [mkCandle 0 1 1 1 1 1, mkCandle 2 1 1 1 1 3, mkCandle 10 10 10 8 10 11]

theorem wRef2_ema :
    get_ema_at_timestamp wRef2 10 1 2 = (some 2, some (5 / 3)) := by
  norm_num [get_ema_at_timestamp, filter_complete_candles, calculate_ema,
    emaTail, wRef2, mkCandle]

/-- Witness for C3: running the backtest on `wDf`/`wRef2` records
exactly one (force-closed) position, and the theorem yields its entry
conditions. -/
theorem entry_guard_witness :
    ∃ p, p ∈ (backtest cfgW "BTCUSDC" "1h" wDf wRef2).positions ∧
      EntryOK cfgW wDf wRef2 p := by
  have hm : ∀ p ∈ (backtest cfgW "BTCUSDC" "1h" wDf wRef2).positions,
      EntryOK cfgW wDf wRef2 p :=
    entry_guard cfgW "BTCUSDC" "1h" wDf wRef2
  rcases hx : (backtest cfgW "BTCUSDC" "1h" wDf wRef2).positions with _ | ⟨q, r⟩
  · exfalso
    have hlen : (backtest cfgW "BTCUSDC" "1h" wDf wRef2).positions ≠ [] := by
      norm_num [backtest, wDf, wRef2, cfgW, mkCandle, backtestLoop,
        initialBTState, stepCandle, detect_patterns, detect_hammer,
        detect_shooting_star, detect_doji, detect_bullish_engulfing,
        detect_bearish_engulfing, detect_morning_star, detect_evening_star,
        is_bullish_pattern, get_ema_at_timestamp, filter_complete_candles,
        calculate_ema, emaTail, entryPhase, exitPhase, evalExit,
        forcedClosePhase, closeUpdate, recordClosed, Position.calculate_pnl,
        aggregateStats]
    exact hlen hx
  · exact ⟨q, by simp [hx], hm q (by simp [hx])⟩

/-! ### C4: run-level state-machine invariant -/

/-- Invariant carried through the candle loop: the trade counter equals
the number of recorded positions, every recorded position is closed
(exit time and reason set), and no loop-recorded position carries the
ForcedClose reason (only the post-loop phase uses it). -/
def CloseInv (st : BTState) : Prop :=
  st.total_trades = st.positions.length ∧
  ∀ p ∈ st.positions, p.exit_time.isSome ∧ p.exit_reason.isSome ∧
    p.exit_reason ≠ some ExitReason.FORCED_CLOSE

theorem exitPhase_CloseInv (cfg : BTConfig) (df_4h : List Candle)
    (candle : Candle) (st : BTState) (h : CloseInv st) :
    CloseInv (exitPhase cfg df_4h candle st) := by
  rcases exitPhase_cases cfg df_4h candle st with heq |
    ⟨cp, reason, price, hcp, hE, heq⟩
  · rwa [heq]
  · rw [heq]
    constructor
    · simp [recordClosed, h.1]
    · intro p hp
      simp only [recordClosed, List.mem_append, List.mem_singleton] at hp
      rcases hp with hp | rfl
      · exact h.2 p hp
      · have hkeep := calculate_pnl_keeps
          (closeUpdate cfg df_4h candle cp reason price) price cfg.fee_percent
        refine ⟨?_, ?_, ?_⟩
        · rw [hkeep.2.2.2.2.2.2.2.2.1]; simp [closeUpdate]
        · rw [hkeep.2.2.2.2.2.2.2.2.2]; simp [closeUpdate]
        · rw [hkeep.2.2.2.2.2.2.2.2.2]
          simp only [closeUpdate]
          intro hr
          exact evalExit_ne_forced cfg df_4h candle cp reason price hE
            (by simpa using hr)

theorem entryPhase_CloseInv (cfg : BTConfig) (sym tf : String)
    (df_4h : List Candle) (candle : Candle) (pattern : Option PatternType)
    (st : BTState) (h : CloseInv st) :
    CloseInv (entryPhase cfg sym tf df_4h candle pattern st) := by
  constructor
  · rw [entryPhase_total_trades, entryPhase_positions]; exact h.1
  · intro p hp
    rw [entryPhase_positions] at hp
    exact h.2 p hp

theorem stepCandle_CloseInv (cfg : BTConfig) (sym tf : String)
    (df df_4h : List Candle) (i : Nat) (st : BTState) (h : CloseInv st) :
    CloseInv (stepCandle cfg sym tf df df_4h i st) := by
  rcases hc : df[i]? with _ | candle
  · simpa [stepCandle, hc] using h
  · simp only [stepCandle, hc]
    apply entryPhase_CloseInv
    apply exitPhase_CloseInv
    split
    · exact ⟨h.1, h.2⟩
    · exact h

theorem backtestLoop_CloseInv (cfg : BTConfig) (sym tf : String)
    (df df_4h : List Candle) : CloseInv (backtestLoop cfg sym tf df df_4h) := by
  unfold backtestLoop
  have main : ∀ (l : List Nat) (st : BTState), CloseInv st →
      CloseInv (l.foldl
        (fun st i => stepCandle cfg sym tf df df_4h i st) st) := by
    intro l
    induction l with
    | nil => exact fun st h => h
    | cons a as ih =>
      exact fun st h => ih _ (stepCandle_CloseInv cfg sym tf df df_4h a st h)
  exact main _ _ ⟨rfl, by simp [initialBTState]⟩

theorem forcedClosePhase_none (cfg : BTConfig) (df_4h : List Candle)
    (lc : Candle) (st : BTState) (hcp : st.current_position = none) :
    forcedClosePhase cfg df_4h lc st = st := by
  simp [forcedClosePhase, hcp]

theorem forcedClosePhase_some (cfg : BTConfig) (df_4h : List Candle)
    (lc : Candle) (st : BTState) (cp : Position)
    (hcp : st.current_position = some cp) :
    forcedClosePhase cfg df_4h lc st = recordClosed st
      ((closeUpdate cfg df_4h lc cp ExitReason.FORCED_CLOSE
        lc.close).calculate_pnl lc.close cfg.fee_percent) := by
  simp [forcedClosePhase, hcp, closeUpdate]

/-- Unfolding `backtest` in the main (≥ 3 candles) case. -/
theorem backtest_main_case (cfg : BTConfig) (sym tf : String)
    (df df_4h : List Candle) (h3 : ¬ df.length < 3) :
    ∃ lc, df.getLast? = some lc ∧
      (backtest cfg sym tf df df_4h).positions =
        (forcedClosePhase cfg df_4h lc
          (backtestLoop cfg sym tf df df_4h)).positions ∧
      (backtest cfg sym tf df df_4h).total_trades =
        (forcedClosePhase cfg df_4h lc
          (backtestLoop cfg sym tf df df_4h)).total_trades := by
  rcases df with _ | ⟨c0, rest⟩
  · simp at h3
  · obtain ⟨lc, hl⟩ : ∃ lc, (c0 :: rest).getLast? = some lc :=
      Option.isSome_iff_exists.mp (by simp [List.getLast?_isSome])
    refine ⟨lc, hl, ?_⟩
    have hh : (c0 :: rest).head? = some c0 := rfl
    simp only [backtest, h3, if_false, hh, hl]
    exact ⟨(aggregateStats_keeps _).1, (aggregateStats_keeps _).2.1⟩

/-- C4.  Run-level state machine: at most one position is open at any
moment by construction (the loop state holds an `Option Position`); at
run end `total_trades` equals the length of the recorded positions list
and every recorded position is closed; no position recorded during the
loop is marked ForcedClose, and when a position is still open after the
last candle it is force-closed exactly once — the final positions list
is the loop's list plus a single position with reason ForcedClose, the
last candle's timestamp and the last candle's close price. -/
theorem run_state_machine (cfg : BTConfig) (sym tf : String)
    (df df_4h : List Candle) :
    (backtest cfg sym tf df df_4h).total_trades =
      (backtest cfg sym tf df df_4h).positions.length ∧
    (∀ p ∈ (backtest cfg sym tf df df_4h).positions,
      p.exit_time.isSome ∧ p.exit_reason.isSome) ∧
    (∀ p ∈ (backtestLoop cfg sym tf df df_4h).positions,
      p.exit_reason ≠ some ExitReason.FORCED_CLOSE) ∧
    (∀ cp lc, ¬ df.length < 3 →
      (backtestLoop cfg sym tf df df_4h).current_position = some cp →
      df.getLast? = some lc →
      ∃ q, (backtest cfg sym tf df df_4h).positions =
          (backtestLoop cfg sym tf df df_4h).positions ++ [q] ∧
        q.exit_reason = some ExitReason.FORCED_CLOSE ∧
        q.exit_time = some lc.timestamp ∧
        q.exit_price = some lc.close) ∧
    (∀ lc, ¬ df.length < 3 →
      (backtestLoop cfg sym tf df df_4h).current_position = none →
      df.getLast? = some lc →
      (backtest cfg sym tf df df_4h).positions =
        (backtestLoop cfg sym tf df df_4h).positions) := by
  have hloop := backtestLoop_CloseInv cfg sym tf df df_4h
  by_cases h3 : df.length < 3
  · refine ⟨by simp [backtest, h3], by simp [backtest, h3],
      fun p hp => (hloop.2 p hp).2.2, ?_, ?_⟩
    · intro cp lc h3c; exact absurd h3 h3c
    · intro lc h3c; exact absurd h3 h3c
  · obtain ⟨lc, hl, hpos, htot⟩ := backtest_main_case cfg sym tf df df_4h h3
    refine ⟨?_, ?_, fun p hp => (hloop.2 p hp).2.2, ?_, ?_⟩
    · rw [hpos, htot]
      rcases hcp : (backtestLoop cfg sym tf df df_4h).current_position with
        _ | cp
      · rw [forcedClosePhase_none cfg df_4h lc _ hcp]; exact hloop.1
      · rw [forcedClosePhase_some cfg df_4h lc _ cp hcp]
        simp [recordClosed, hloop.1]
    · intro p hp
      rw [hpos] at hp
      rcases hcp : (backtestLoop cfg sym tf df df_4h).current_position with
        _ | cp
      · rw [forcedClosePhase_none cfg df_4h lc _ hcp] at hp
        exact ⟨(hloop.2 p hp).1, (hloop.2 p hp).2.1⟩
      · rw [forcedClosePhase_some cfg df_4h lc _ cp hcp] at hp
        simp only [recordClosed, List.mem_append, List.mem_singleton] at hp
        rcases hp with hp | rfl
        · exact ⟨(hloop.2 p hp).1, (hloop.2 p hp).2.1⟩
        · have hkeep := calculate_pnl_keeps
            (closeUpdate cfg df_4h lc cp ExitReason.FORCED_CLOSE lc.close)
            lc.close cfg.fee_percent
          constructor
          · rw [hkeep.2.2.2.2.2.2.2.2.1]; simp [closeUpdate]
          · rw [hkeep.2.2.2.2.2.2.2.2.2]; simp [closeUpdate]
    · intro cp lc' _ hcp hl'
      have hlc : lc' = lc := by rw [hl] at hl'; exact (Option.some.injEq _ _ ▸ hl').symm ▸ rfl
      subst hlc
      refine ⟨(closeUpdate cfg df_4h lc' cp ExitReason.FORCED_CLOSE
        lc'.close).calculate_pnl lc'.close cfg.fee_percent, ?_, ?_, ?_, ?_⟩
      · rw [hpos, forcedClosePhase_some cfg df_4h lc' _ cp hcp]
        simp [recordClosed]
      · rw [(calculate_pnl_keeps _ _ _).2.2.2.2.2.2.2.2.2]
        simp [closeUpdate]
      · rw [(calculate_pnl_keeps _ _ _).2.2.2.2.2.2.2.2.1]
        simp [closeUpdate]
      · exact calculate_pnl_exit_price_some _ _ _ _ (by simp [closeUpdate])
    · intro lc' _ hcp hl'
      have hlc : lc' = lc := by rw [hl] at hl'; exact (Option.some.injEq _ _ ▸ hl').symm ▸ rfl
      subst hlc
      rw [hpos, forcedClosePhase_none cfg df_4h lc' _ hcp]

/-- The position the C3/C4-witness run holds open when the loop ends. -/
def wOpenPos : Position :=
  { symbol := "BTCUSDC", timeframe := "1h", entry_time := 10,
    entry_price := 10, quantity := 10, pattern := PatternType.HAMMER,
    entry_ema_short := 2, entry_ema_long := 5 / 3 }

/-- Witness for C4: the concrete run of the C3 witness.  Its loop ends
with an open position, so the force-close branch fires. -/
theorem run_state_machine_witness :
    (backtest cfgW "BTCUSDC" "1h" wDf wRef2).total_trades =
      (backtest cfgW "BTCUSDC" "1h" wDf wRef2).positions.length ∧
    (backtestLoop cfgW "BTCUSDC" "1h" wDf wRef2).current_position =
      some wOpenPos ∧
    (∃ q, (backtest cfgW "BTCUSDC" "1h" wDf wRef2).positions =
        (backtestLoop cfgW "BTCUSDC" "1h" wDf wRef2).positions ++ [q] ∧
      q.exit_reason = some ExitReason.FORCED_CLOSE ∧
      q.exit_time = some (mkCandle 10 10 10 8 10 11).timestamp ∧
      q.exit_price = some (mkCandle 10 10 10 8 10 11).close) := by
  have hx : (backtestLoop cfgW "BTCUSDC" "1h" wDf wRef2).current_position =
      some wOpenPos := by
    norm_num [backtestLoop, wDf, wRef2, cfgW, wOpenPos, mkCandle,
      initialBTState, stepCandle, detect_patterns, detect_hammer,
      detect_shooting_star, detect_doji, detect_bullish_engulfing,
      detect_bearish_engulfing, detect_morning_star, detect_evening_star,
      is_bullish_pattern, get_ema_at_timestamp, filter_complete_candles,
      calculate_ema, emaTail, entryPhase, exitPhase, evalExit, recordClosed,
      Position.calculate_pnl]
  have h := run_state_machine cfgW "BTCUSDC" "1h" wDf wRef2
  exact ⟨h.1, hx, h.2.2.2.1 wOpenPos (mkCandle 10 10 10 8 10 11)
    (by norm_num [wDf]) hx rfl⟩

/-! ### C6: series merge contract -/

/-- The CandleSeries invariant of the spec's data model: strictly
increasing (hence unique) timestamps. -/
def strictlyAscendingTs (l : List Candle) : Prop :=
  l.Pairwise (fun a b => a.timestamp < b.timestamp)

theorem dedupKeepLast_sublist (l : List Candle) :
    List.Sublist (dedupKeepLast l) l := by
  induction l with
  | nil => simp [dedupKeepLast]
  | cons x xs ih =>
    simp only [dedupKeepLast]
    split
    · exact List.Sublist.cons x ih
    · exact List.Sublist.cons₂ x ih

theorem dedup_ts_mem (t : Nat) (l : List Candle) :
    t ∈ (dedupKeepLast l).map (fun c => c.timestamp) ↔
      t ∈ l.map (fun c => c.timestamp) := by
  induction l with
  | nil => simp [dedupKeepLast]
  | cons x xs ih =>
    simp only [dedupKeepLast]
    split
    · rename_i hany
      rw [ih]
      simp only [List.map_cons, List.mem_cons]
      constructor
      · exact Or.inr
      · rintro (rfl | h)
        · obtain ⟨y, hy, hyt⟩ := List.any_eq_true.mp hany
          exact List.mem_map.mpr ⟨y, hy, by simpa using hyt⟩
        · exact h
    · simp only [List.map_cons, List.mem_cons]
      rw [ih]

theorem dedup_ts_nodup (l : List Candle) :
    ((dedupKeepLast l).map (fun c => c.timestamp)).Nodup := by
  induction l with
  | nil => simp [dedupKeepLast]
  | cons x xs ih =>
    simp only [dedupKeepLast]
    split
    · exact ih
    · rename_i hany
      simp only [List.map_cons, List.nodup_cons]
      refine ⟨fun hmem => ?_, ih⟩
      rw [dedup_ts_mem] at hmem
      obtain ⟨y, hy, hyt⟩ := List.mem_map.mp hmem
      exact hany (List.any_eq_true.mpr ⟨y, hy, by simpa using hyt⟩)

theorem dedup_eq_of_nodup (l : List Candle)
    (h : (l.map (fun c => c.timestamp)).Nodup) : dedupKeepLast l = l := by
  induction l with
  | nil => rfl
  | cons x xs ih =>
    simp only [List.map_cons, List.nodup_cons] at h
    have hno : ¬ (xs.any (fun y => y.timestamp = x.timestamp) = true) := by
      intro hany
      obtain ⟨y, hy, hyt⟩ := List.any_eq_true.mp hany
      exact h.1 (List.mem_map.mpr ⟨y, hy, by simpa using hyt⟩)
    simp only [dedupKeepLast]
    rw [if_neg hno, ih h.2]

theorem mem_dedup_append_of_right (cas inc : List Candle)
    (h : (inc.map (fun c => c.timestamp)).Nodup) :
    ∀ b ∈ inc, b ∈ dedupKeepLast (cas ++ inc) := by
  induction cas with
  | nil =>
    intro b hb
    simpa [dedup_eq_of_nodup inc h] using hb
  | cons x cs ih =>
    intro b hb
    simp only [List.cons_append, dedupKeepLast]
    split
    · exact ih b hb
    · exact List.mem_cons_of_mem x (ih b hb)

theorem strict_ts_nodup (l : List Candle) (h : strictlyAscendingTs l) :
    (l.map (fun c => c.timestamp)).Nodup :=
  List.pairwise_map.mpr (h.imp fun hab => Nat.ne_of_lt hab)

theorem sorted_nodup_strict (l : List Candle)
    (hs : List.Sorted candleLE l)
    (hn : (l.map (fun c => c.timestamp)).Nodup) :
    strictlyAscendingTs l := by
  have hn' : l.Pairwise (fun a b => a.timestamp ≠ b.timestamp) :=
    List.pairwise_map.mp hn
  exact (hs.and hn').imp fun hab => lt_of_le_of_ne hab.1 hab.2

theorem strict_unique (l : List Candle) (h : strictlyAscendingTs l) :
    ∀ a ∈ l, ∀ b ∈ l, a.timestamp = b.timestamp → a = b := by
  have hsym : l.Pairwise (fun a b => a.timestamp ≠ b.timestamp) :=
    h.imp fun hab => Nat.ne_of_lt hab
  intro a ha b hb heq
  by_contra hne
  exact (hsym.forall (fun _ _ hxy => Ne.symm hxy) ha hb hne) heq

/-- C6.  Merge contract, under the spec's CandleSeries invariant
(each input has strictly ascending, unique timestamps): before any
retention cutoff, the merged series has strictly ascending unique
timestamps; its timestamp set is the union of the inputs' timestamp
sets, so its size is the cardinality of that union; every incoming
record survives verbatim, so at a timestamp present in both inputs the
merged record equals the incoming one; every merged record comes from
one of the inputs; and when either input is empty the result is the
other input. -/
theorem merge_with_cache_contract (cached incoming : List Candle)
    (hc : strictlyAscendingTs cached) (hi : strictlyAscendingTs incoming) :
    strictlyAscendingTs (merge_with_cache cached incoming none) ∧
    (∀ t, t ∈ (merge_with_cache cached incoming none).map
        (fun c => c.timestamp) ↔
      (t ∈ cached.map (fun c => c.timestamp) ∨
        t ∈ incoming.map (fun c => c.timestamp))) ∧
    (merge_with_cache cached incoming none).length =
      ((cached.map (fun c => c.timestamp)).toFinset ∪
        (incoming.map (fun c => c.timestamp)).toFinset).card ∧
    (∀ b ∈ incoming, b ∈ merge_with_cache cached incoming none) ∧
    (∀ c ∈ merge_with_cache cached incoming none,
      c ∈ cached ∨ c ∈ incoming) ∧
    (∀ a b, a ∈ incoming → b ∈ merge_with_cache cached incoming none →
      b.timestamp = a.timestamp → b = a) ∧
    (cached = [] → merge_with_cache cached incoming none = incoming) ∧
    (incoming = [] → merge_with_cache cached incoming none = cached) := by
  by_cases hnil : cached.length = 0
  · have hceq : cached = [] := List.length_eq_zero.mp hnil
    subst hceq
    have hmerge : merge_with_cache [] incoming none = incoming := by
      simp [merge_with_cache]
    rw [hmerge]
    refine ⟨hi, by simp, ?_, fun b hb => hb, fun c hcm => Or.inr hcm,
      fun a b ha hb heq => strict_unique incoming hi b hb a ha heq,
      fun _ => rfl, fun h => h⟩
    simp [List.toFinset_card_of_nodup (strict_ts_nodup incoming hi)]
  · have hmerge : merge_with_cache cached incoming none =
        sortByTimestamp (dedupKeepLast (cached ++ incoming)) := by
      simp [merge_with_cache, hnil]
    have hidn := strict_ts_nodup incoming hi
    have hdn := dedup_ts_nodup (cached ++ incoming)
    have hperm : List.Perm (sortByTimestamp (dedupKeepLast (cached ++ incoming)))
        (dedupKeepLast (cached ++ incoming)) :=
      List.perm_insertionSort candleLE _
    have hsorted : List.Sorted candleLE
        (sortByTimestamp (dedupKeepLast (cached ++ incoming))) :=
      List.sorted_insertionSort candleLE _
    have hsn : ((sortByTimestamp (dedupKeepLast (cached ++
        incoming))).map (fun c => c.timestamp)).Nodup :=
      ((hperm.map _).nodup_iff).mpr hdn
    have hasc := sorted_nodup_strict _ hsorted hsn
    have hmem : ∀ t, t ∈ (merge_with_cache cached incoming none).map
        (fun c => c.timestamp) ↔
        (t ∈ cached.map (fun c => c.timestamp) ∨
          t ∈ incoming.map (fun c => c.timestamp)) := by
      intro t
      rw [hmerge, (hperm.map _).mem_iff, dedup_ts_mem, List.map_append,
        List.mem_append]
    refine ⟨by rw [hmerge]; exact hasc, hmem, ?_, ?_, ?_, ?_, ?_, ?_⟩
    · rw [hmerge, ← List.length_map _ (fun c => c.timestamp),
        ← List.toFinset_card_of_nodup hsn]
      congr 1
      ext t
      simp only [List.mem_toFinset, Finset.mem_union]
      rw [← hmerge]
      exact hmem t
    · intro b hb
      rw [hmerge, hperm.mem_iff]
      exact mem_dedup_append_of_right cached incoming hidn b hb
    · intro c hcm
      rw [hmerge, hperm.mem_iff] at hcm
      have := (dedupKeepLast_sublist (cached ++ incoming)).subset hcm
      simpa using this
    · intro a b ha hb heq
      have hbm : a ∈ merge_with_cache cached incoming none := by
        rw [hmerge, hperm.mem_iff]
        exact mem_dedup_append_of_right cached incoming hidn a ha
      rw [hmerge] at hb hbm
      exact strict_unique _ hasc b hb a hbm heq
    · intro h
      exact absurd (by rw [h]; rfl) hnil
    · intro h
      subst h
      rw [hmerge, List.append_nil,
        dedup_eq_of_nodup cached (strict_ts_nodup cached hc)]
      exact List.Sorted.insertionSort_eq (hc.imp fun hab => Nat.le_of_lt hab)

/-- Witness for C6: cached candles at times 0 and 2 and incoming
candles at times 2 and 4, the shared time 2 carrying different values;
the incoming record wins and the sizes add up to the 3-element union. -/
def wCached : List Candle := [mkCandle 0 1 1 1 1 1, mkCandle 2 5 5 5 5 3]

def wIncoming : List Candle := [mkCandle 2 7 7 7 7 3, mkCandle 4 9 9 9 9 5]

theorem merge_with_cache_contract_witness :
    strictlyAscendingTs (merge_with_cache wCached wIncoming none) ∧
    (merge_with_cache wCached wIncoming none).length =
      (((wCached.map (fun c => c.timestamp)).toFinset ∪
        (wIncoming.map (fun c => c.timestamp)).toFinset)).card ∧
    mkCandle 2 7 7 7 7 3 ∈ merge_with_cache wCached wIncoming none ∧
    merge_with_cache wCached wIncoming none =
      [mkCandle 0 1 1 1 1 1, mkCandle 2 7 7 7 7 3, mkCandle 4 9 9 9 9 5] := by
  have h := merge_with_cache_contract wCached wIncoming
    (by norm_num [strictlyAscendingTs, wCached, mkCandle, List.pairwise_cons])
    (by norm_num [strictlyAscendingTs, wIncoming, mkCandle, List.pairwise_cons])
  refine ⟨h.1, h.2.2.1, h.2.2.2.1 (mkCandle 2 7 7 7 7 3)
    (by simp [wIncoming]), ?_⟩
  norm_num [merge_with_cache, wCached, wIncoming, mkCandle, dedupKeepLast,
    sortByTimestamp, List.insertionSort, List.orderedInsert, candleLE]

end CryptoBacktest
